import Mathlib

/-!
Shallow embedding of `src/cursely.py` (the `Window`/`Desktop` compositing
core) and proofs of the specification claims about it.

Conventions of the embedding:
* Python ints are modelled as `Int`.
* A curses subwindow handle (`scr`) is modelled by `Surface`, recording the
  absolute origin and size that `scr.subwin(ysize, xsize, y, x)` was given;
  an absent handle (`None`) is `Option.none`.
* Log calls (`LOG.warn` / `LOG.error`) are modelled by returning the list of
  emitted messages; drawing primitives that only paint the terminal
  (`addstr`, `border`, `hline`, `vline`, `noutrefresh`, `doupdate`) carry no
  state we track, except that calling a method on an absent (`None`) handle
  fails, which we do track.
* Subclass lifecycle hooks (`on_init`, `on_redraw`, ...) are arbitrary user
  code; theorems quantify over them as functions.
-/

namespace Cursely

/-! ## Data model and operations, embedded from `src/cursely.py` -/

/-- A curses (sub)window handle, as created by
`self.scr.subwin(ysize, xsize, y, x)` at `cursely.py:423`: absolute origin
`(begy, begx)` and size `(maxy, maxx)` (curses `getbegyx` / `getmaxyx`). -/
structure Surface where
  begy : Int
  begx : Int
  maxy : Int
  maxx : Int
deriving DecidableEq, Repr

/-- curses `win.enclose(y, x)`: whether screen-relative coordinates fall
inside the window's rectangle (used at `cursely.py:389`). -/
def Surface.enclose (s : Surface) (my mx : Int) : Bool :=
  decide (s.begy ≤ my) && decide (my < s.begy + s.maxy) &&
  decide (s.begx ≤ mx) && decide (mx < s.begx + s.maxx)

/-- The state of a `Window` object (`cursely.py:140-187`): requested
geometry, active flag, subwindow handle, z index, colors, and the four
one-time warning latches set in `__init__` (lines 184-187). -/
structure Window where
  y : Int
  x : Int
  ysize : Int
  xsize : Int
  active : Bool
  scr : Option Surface
  z : Int
  fg : String
  bg : String
  onClickWarn : Bool
  onInitWarn : Bool
  onKeyWarn : Bool
  onRedrawWarn : Bool
deriving DecidableEq, Repr

/-- Warning logged at `cursely.py:168` when a requested ysize is below 1. -/
def ysize_warn_msg : String := "Window.ysize minimum is 1"

/-- Warning logged at `cursely.py:173` when a requested xsize is below 1. -/
def xsize_warn_msg : String := "Window.xsize minimum is 1"

/-- `Window.__init__` (`cursely.py:150-187`): stores the requested origin,
clamps each size below 1 up to 1 with a warning (lines 167-176), starts
active with no subwindow handle, `_z` set to the current `Window._z_top`
(line 181, passed in as `ztop`), and all four warning latches cleared.
Returns the constructed window together with the warnings logged. -/
def window_init (y x ysize xsize : Int) (ztop : Int) : Window × List String :=
  ({ y := y
     x := x
     ysize := if ysize < 1 then 1 else ysize
     xsize := if xsize < 1 then 1 else xsize
     active := true
     scr := none
     z := ztop
     fg := "dgray"
     bg := "cream"
     onClickWarn := false
     onInitWarn := false
     onKeyWarn := false
     onRedrawWarn := false },
   (if ysize < 1 then [ysize_warn_msg] else []) ++
   (if xsize < 1 then [xsize_warn_msg] else []))

/-- The geometry computed by `Desktop.add_win` (`cursely.py:416-419`) for a
child of a parent whose live dimensions are `(H, W)` (the desktop's
`self._ymax` / `self._xmax`), and passed to `subwin(ysize, xsize, y, x)`:
`y = min(window.y, H)`, `x = min(window.x, W)`,
`ysize = min(window.ysize, H - window.y)`,
`xsize = min(window.xsize, W - window.x)`. -/
def add_win_region (H W : Int) (w : Window) : Surface :=
  { begy := min w.y H
    begx := min w.x W
    maxy := min w.ysize (H - w.y)
    maxx := min w.xsize (W - w.x) }

/-- The mutable state of a `Desktop` that `add_win` touches: the root
screen dimensions (its `_ymax`/`_xmax`), the process-wide z counter
`Window._z_top`, and the child list `self._windows`. -/
structure DeskState where
  H : Int
  W : Int
  z_top : Int
  windows : List Window
deriving DecidableEq, Repr

/-- `Desktop.add_win` (`cursely.py:415-434`). The clamped geometry is
computed first (lines 416-419); everything else — subwindow creation,
handle assignment, the `_on_init` hook (abstracted as `onInit`, covering
any subclass behavior), the `Window._z_top` increment and `_z` assignment,
and appending to `self._windows` — happens only under `if window.active:`
(lines 421-434). Returns the updated desktop state and window object.
The `LOG` calls inside the branch and `window.scr.refresh()` paint or log
only and are not tracked. -/
def add_win (onInit : Window → Window) (st : DeskState) (w : Window) :
    DeskState × Window :=
  let subwin := add_win_region st.H st.W w
  if w.active then
    let w1 := onInit { w with scr := some subwin }
    let w2 := { w1 with z := st.z_top + 1 }
    ({ st with z_top := st.z_top + 1, windows := st.windows ++ [w2] }, w2)
  else
    (st, w)

/-! ### Color-pair table (`cursely.py:98-136`, `Desktop._init_curses` 303-316) -/

/-- The `CLRS` named-color table (`cursely.py:99-124`), keys in source
(dict insertion) order, with the commented-out entries absent. -/
def CLRS : List (String × Int) :=
  [("default", -1), ("dgray", 0x00), ("red", 0x01), ("green", 0x02),
   ("cyan", 0x0e), ("black", 0x10), ("blue", 0x15), ("indigo", 0x36),
   ("brown", 0x5e), ("violet", 0x81), ("orange", 0xca), ("yellow", 0xe2),
   ("cream", 0xe5), ("white", 0xe7), ("gray", 0xf1), ("lgray", 0xfa)]

/-- Iteration order of `for fg in CLRS` — the dict's keys. -/
def CLRS_keys : List String := CLRS.map Prod.fst

/-- The opaque attribute returned by `curses.color_pair(ctr)`, identified by
the pair number it was built from. -/
structure PairHandle where
  idx : Int
deriving DecidableEq, Repr

/-- Error taxonomy of the spec: an unregistered color pair (a `KeyError` on
the `PAIRS` dict in the source) surfaces as `ConfigurationError`. -/
inductive CurselyError where
  | ConfigurationError
deriving DecidableEq, Repr

/-- One iteration of the registration loop body (`cursely.py:313-316`):
given the accumulated `(PAIRS, ctr)` state and the current `(fg, bg)`,
register the pair and bump `ctr` when `ctr <= COLOR_PAIRS - 1 and fg != bg`,
else leave the state unchanged. -/
def init_pairs_step (maxPairs : Int)
    (st : List ((String × String) × PairHandle) × Int) (key : String × String) :
    List ((String × String) × PairHandle) × Int :=
  if st.2 ≤ maxPairs - 1 ∧ key.1 ≠ key.2 then
    (st.1 ++ [(key, ⟨st.2⟩)], st.2 + 1)
  else st

/-- The `PAIRS` table built by `Desktop._init_curses` (`cursely.py:310-316`):
`ctr = 1`, then the nested `for fg in CLRS: for bg in CLRS:` loop, with
`maxPairs` standing for the driver-reported `curses.COLOR_PAIRS`. -/
def init_curses_PAIRS (maxPairs : Int) :
    List ((String × String) × PairHandle) :=
  (CLRS_keys.foldl
    (fun st fg =>
      CLRS_keys.foldl (fun st2 bg => init_pairs_step maxPairs st2 (fg, bg)) st)
    ([], 1)).1

/-- `PAIRS[(fg, bg)]` dict lookup (used at `cursely.py:197` and 345-346):
the registered handle when present, a `KeyError` — the spec's
`ConfigurationError` — otherwise. -/
def lookupPair : List ((String × String) × PairHandle) → String × String →
    Except CurselyError PairHandle
  | [], _ => .error .ConfigurationError
  | (k, hdl) :: rest, key => if k = key then .ok hdl else lookupPair rest key

/-! ### Event dispatch in `Desktop._mainloop` (`cursely.py:375-398`) -/

/-- A decoded input returned by `getch` in one tick that is not `-1`:
either a `curses.KEY_MOUSE` event decoded by `curses.getmouse()` into
`(my, mx, click)`, or a plain key code. -/
inductive Event where
  | mouse (my mx click : Int)
  | key (getch : Int)
deriving DecidableEq, Repr

/-- A handler invocation performed by the input branch of one tick:
the Desktop's own click handler (`self._on_click`, line 387), the click
handler of the child at index `i` (`window._on_click`, line 390), or the
Desktop's key handler (`self._on_key`, line 394). Key events have no
per-child constructor because the source never forwards them to
children. -/
inductive Invocation where
  | deskClick (my mx click : Int)
  | winClick (i : Nat) (my mx click : Int)
  | deskKey (getch : Int)
deriving DecidableEq, Repr

/-- The guard `window.scr is not None and window.scr.enclose(my, mx)` of
`cursely.py:389`. -/
def click_hits (w : Window) (my mx : Int) : Bool :=
  match w.scr with
  | some s => s.enclose my mx
  | none => false

/-- The broadcast `for window in self._windows:` loop (`cursely.py:388-390`):
every window whose handle is present (`window.scr is not None`) and whose
subwindow encloses `(my, mx)` gets `_on_click`; `i` tracks the index in
`self._windows`. -/
def broadcast_clicks (my mx click : Int) : Nat → List Window → List Invocation
  | _, [] => []
  | i, w :: ws =>
    (if click_hits w my mx then [Invocation.winClick i my mx click] else [])
      ++ broadcast_clicks my mx click (i + 1) ws

/-- The input branch of one tick of `Desktop._mainloop`
(`cursely.py:384-394`) for `getch != -1`: a mouse event goes to the
Desktop's click handler and then to every enclosing child with a live
handle; the keys `q`/`Q` (codes 113/81) with `quit_on_q` enabled clear the
loop flag and dispatch nothing; any other key goes to the Desktop's key
handler only. Returns the invocation list and whether the loop
continues. -/
def handle_input (quit_on_q : Bool) (ws : List Window) :
    Event → List Invocation × Bool
  | .mouse my mx click =>
    (Invocation.deskClick my mx click :: broadcast_clicks my mx click 0 ws,
     true)
  | .key getch =>
    if (getch = 113 ∨ getch = 81) ∧ quit_on_q then ([], false)
    else ([Invocation.deskKey getch], true)

/-! ### The redraw pass (`Window._on_redraw` 204-208, `Desktop._on_redraw`
348-363) -/

/-- A subclass `on_redraw` hook: arbitrary user code mutating the window,
returning `true` in the second component when it raised `curses.error`
(wrote outside its region's bounds). Side effects before the raise are kept
in the returned window, as in Python. -/
abbrev RedrawHook := Window → Window × Bool

/-- Error logged by `Window._on_redraw` at `cursely.py:208` when the hook
raised `curses.error`. -/
def bad_area_msg : String := "Window is writing to bad area"

/-- `Window._on_redraw` (`cursely.py:204-208`): run the subclass hook in a
`try`, catch `curses.error`, log it, and return normally either way. -/
def window_on_redraw (hook : RedrawHook) (w : Window) : Window × List String :=
  let r := hook w
  if r.2 then (r.1, [bad_area_msg]) else (r.1, [])

/-- The uncaught exception raised when the per-window tail of the redraw
pass calls a method (`getmaxyx` via `_ymax`, `border`, `noutrefresh`) on a
window whose `scr` is `None`: an `AttributeError`, which no handler in the
loop catches. -/
inductive PassError where
  | NoneDeref
deriving DecidableEq, Repr

/-- The per-window body of the `for window in self._windows:` loop in
`Desktop._on_redraw` (`cursely.py:353-362`). Active windows run
`window._on_redraw()` (whose `curses.error` is caught and logged), then
the shadow/border draws and `window.scr.noutrefresh()` — every one of
which dereferences `window.scr` and raises an uncaught `AttributeError`
when the handle is `None`. The drawing output itself is not tracked.
Inactive windows just get `window.scr = None`. -/
def desktop_redraw_step (hook : RedrawHook) (w : Window) :
    Except PassError (Window × List String) :=
  if w.active then
    let r := window_on_redraw hook w
    match r.1.scr with
    | some _ => .ok (r.1, r.2)
    | none => .error .NoneDeref
  else
    .ok ({ w with scr := none }, [])

/-- The whole child loop of `Desktop._on_redraw` (`cursely.py:353-362`):
process the windows in order, propagating the uncaught `AttributeError`
and collecting the per-window states and log lines. -/
def desktop_redraw_pass (hook : RedrawHook) :
    List Window → Except PassError (List Window × List String)
  | [] => .ok ([], [])
  | w :: ws =>
    match desktop_redraw_step hook w with
    | .error e => .error e
    | .ok (w2, lg) =>
      match desktop_redraw_pass hook ws with
      | .error e => .error e
      | .ok (ws2, lgs) => .ok (w2 :: ws2, lg ++ lgs)

/-- A concrete active attached window for witnesses: constructed by
`window_init` with its handle set as `add_win` would. -/
def sampleWin : Window :=
  { (window_init 0 0 2 2 0).1 with scr := some ⟨0, 0, 2, 2⟩ }

/-- A second concrete attached window. -/
def sampleWin2 : Window :=
  { (window_init 1 1 2 2 0).1 with scr := some ⟨1, 1, 2, 2⟩ }

/-- `sampleWin` after its active flag is cleared. -/
def sampleWinInactive : Window := { sampleWin with active := false }

/-- `sampleWinInactive` after a redraw pass released its handle. -/
def sampleWinReleased : Window := { sampleWinInactive with scr := none }

/-- A hook that always raises `curses.error`, mutating nothing. -/
def alwaysRaiseHook : RedrawHook := fun w => (w, true)

/-- A hook that does nothing and raises nothing. -/
def quietHook : RedrawHook := fun w => (w, false)

/-! ### Unimplemented-hook defaults (`cursely.py:234-252`) -/

/-- Warning logged by an unimplemented hook, e.g.
"Window.on_click() method should be overridden by subclass". -/
def override_warn_msg (hookName : String) : String :=
  "Window." ++ hookName ++ " method should be overridden by subclass"

/-- Default `Window.on_click` (`cursely.py:234-237`): warn on the first
call only (latched by `_on_click_warn`), otherwise do nothing. The
`my`/`mx`/`click` arguments are ignored. -/
def on_click_default (my mx click : Int) (w : Window) : Window × List String :=
  if !w.onClickWarn then
    ({ w with onClickWarn := true }, [override_warn_msg "on_click()"])
  else (w, [])

/-- Default `Window.on_init` (`cursely.py:239-242`). -/
def on_init_default (w : Window) : Window × List String :=
  if !w.onInitWarn then
    ({ w with onInitWarn := true }, [override_warn_msg "on_init()"])
  else (w, [])

/-- Default `Window.on_key` (`cursely.py:244-247`); `getch` is ignored. -/
def on_key_default (getch : Int) (w : Window) : Window × List String :=
  if !w.onKeyWarn then
    ({ w with onKeyWarn := true }, [override_warn_msg "on_key()"])
  else (w, [])

/-- Default `Window.on_redraw` (`cursely.py:249-252`). -/
def on_redraw_default (w : Window) : Window × List String :=
  if !w.onRedrawWarn then
    ({ w with onRedrawWarn := true }, [override_warn_msg "on_redraw()"])
  else (w, [])

/-- Call a hook `n` times in sequence, threading the window state and
collecting all log output. -/
def iterate_hook (f : Window → Window × List String) :
    Nat → Window → Window × List String
  | 0, w => (w, [])
  | n + 1, w =>
    let r := f w
    let rest := iterate_hook f n r.1
    (rest.1, r.2 ++ rest.2)

/-! ## Theorems settling the specification claims -/

/-- CLAIM C1 (amended). For a child constructed by `Window.__init__` with
requested geometry `(y, x, ysize, xsize)`, `y, x ≥ 0`, attached to a parent
of dimensions `(H, W)`: the region computed by `add_win` satisfies
`region.y + region.h ≤ H` and `region.x + region.w ≤ W`; sizes below 1 are
clamped to 1 at construction and logged as a warning; and the resulting
region has `h ≥ 1` and `w ≥ 1` PROVIDED the requested origin lies strictly
inside the parent (`y < H` and `x < W`) — for `y ≥ H` (resp. `x ≥ W`) the
computed height (resp. width) is ≤ 0, not clamped back to 1. -/
theorem add_win_region_clamped (y x ysize xsize ztop H W : Int)
    (hy : 0 ≤ y) (hx : 0 ≤ x) :
    (add_win_region H W (window_init y x ysize xsize ztop).1).begy +
      (add_win_region H W (window_init y x ysize xsize ztop).1).maxy ≤ H ∧
    (add_win_region H W (window_init y x ysize xsize ztop).1).begx +
      (add_win_region H W (window_init y x ysize xsize ztop).1).maxx ≤ W ∧
    (y < H → 1 ≤ (add_win_region H W (window_init y x ysize xsize ztop).1).maxy) ∧
    (x < W → 1 ≤ (add_win_region H W (window_init y x ysize xsize ztop).1).maxx) ∧
    1 ≤ (window_init y x ysize xsize ztop).1.ysize ∧
    1 ≤ (window_init y x ysize xsize ztop).1.xsize ∧
    (ysize < 1 → (window_init y x ysize xsize ztop).1.ysize = 1 ∧
      ysize_warn_msg ∈ (window_init y x ysize xsize ztop).2) ∧
    (xsize < 1 → (window_init y x ysize xsize ztop).1.xsize = 1 ∧
      xsize_warn_msg ∈ (window_init y x ysize xsize ztop).2) := by
  simp only [window_init, add_win_region]
  refine ⟨?_, ?_, ?_, ?_, ?_, ?_, ?_, ?_⟩
  · split_ifs <;> omega
  · split_ifs <;> omega
  · split_ifs <;> omega
  · split_ifs <;> omega
  · split_ifs <;> omega
  · split_ifs <;> omega
  · intro h; simp [h]
  · intro h; simp [h]

/-- Witness for `add_win_region_clamped` at the concrete request
`(y, x, ysize, xsize) = (2, 3, 0, 5)` on a `10 × 20` parent: the ysize is
clamped to 1 with a warning and the region fits with sizes ≥ 1. -/
theorem add_win_region_clamped_witness :
    1 ≤ (add_win_region 10 20 (window_init 2 3 0 5 0).1).maxy ∧
    (window_init 2 3 0 5 0).1.ysize = 1 ∧
    ysize_warn_msg ∈ (window_init 2 3 0 5 0).2 :=
  ⟨(add_win_region_clamped 2 3 0 5 0 10 20 (by decide) (by decide)).2.2.1
      (by decide),
   ((add_win_region_clamped 2 3 0 5 0 10 20 (by decide) (by decide)).2.2.2.2.2.2.1
      (by decide)).1,
   ((add_win_region_clamped 2 3 0 5 0 10 20 (by decide) (by decide)).2.2.2.2.2.2.1
      (by decide)).2⟩

/-- CLAIM C1, counterexample to the claim as stated: the request
`(y, x, ysize, xsize) = (10, 0, 5, 5)` with `y, x ≥ 0` on a parent of
dimensions `(H, W) = (10, 20)` yields a region of height
`min(5, 10 - 10) = 0`, violating the claimed `region.h ≥ 1` (the clamp to
minimum size 1 happens in `Window.__init__` only, before `add_win` takes
the `min` with the remaining parent space, which can be ≤ 0). -/
theorem add_win_region_height_zero :
    (add_win_region 10 20 (window_init 10 0 5 5 0).1).maxy = 0 ∧
    ¬ (1 ≤ (add_win_region 10 20 (window_init 10 0 5 5 0).1).maxy) := by
  decide

/-- CLAIM C10. If `window.active` is false when `Desktop.add_win` is called,
`add_win` is a complete no-op: the desktop state (including the z counter
`Window._z_top` and the child list `self._windows`) and the window object
are returned unchanged, and the result does not depend on the `_on_init`
hook, which is therefore never fired. -/
theorem add_win_inactive_noop (onInit : Window → Window) (st : DeskState)
    (w : Window) (h : w.active = false) :
    add_win onInit st w = (st, w) := by
  simp [add_win, h]

/-- Witness for `add_win_inactive_noop`: a concrete inactive window is left
untouched by `add_win`, whatever the init hook does. -/
theorem add_win_inactive_noop_witness :
    add_win (fun w => { w with z := 99 })
      { H := 10, W := 20, z_top := 0, windows := [] }
      { (window_init 1 1 2 2 0).1 with active := false } =
    ({ H := 10, W := 20, z_top := 0, windows := [] },
     { (window_init 1 1 2 2 0).1 with active := false }) :=
  add_win_inactive_noop (fun w => { w with z := 99 })
    { H := 10, W := 20, z_top := 0, windows := [] }
    { (window_init 1 1 2 2 0).1 with active := false } (by decide)

/-- A nested fold over two lists is the fold over their product. -/
theorem foldl_nested_eq_product_foldl {α β γ : Type} (f : γ → α × β → γ)
    (l2 : List β) :
    ∀ (l1 : List α) (a0 : γ),
      l1.foldl (fun st a => l2.foldl (fun st2 b => f st2 (a, b)) st) a0 =
      (l1 ×ˢ l2).foldl f a0 := by
  intro l1
  induction l1 with
  | nil => intro a0; rfl
  | cons a l1 ih =>
    intro a0
    simp only [List.foldl_cons, List.product_cons, List.foldl_append,
      List.foldl_map, ih]

/-- Invariant of the registration fold: starting from a state whose keys are
nodup, whose counter equals one plus the table size, and whose keys are
disjoint from the keys still to be processed, the fold keeps the keys nodup,
keeps the counter one plus the table size, never pushes the counter past
`max maxPairs` (of its start), and only ever adds keys drawn from the
processed list with distinct fg and bg. -/
theorem init_pairs_fold_inv (maxPairs : Int) :
    ∀ (ks : List (String × String))
      (st : List ((String × String) × PairHandle) × Int),
      ks.Nodup →
      (st.1.map Prod.fst).Nodup →
      (∀ k ∈ ks, k ∉ st.1.map Prod.fst) →
      st.2 = 1 + st.1.length →
      ((ks.foldl (init_pairs_step maxPairs) st).1.map Prod.fst).Nodup ∧
      (ks.foldl (init_pairs_step maxPairs) st).2 =
        1 + ((ks.foldl (init_pairs_step maxPairs) st).1.length : Int) ∧
      (ks.foldl (init_pairs_step maxPairs) st).2 ≤ max maxPairs st.2 ∧
      (∀ p ∈ (ks.foldl (init_pairs_step maxPairs) st).1,
        p ∈ st.1 ∨ (p.1 ∈ ks ∧ p.1.1 ≠ p.1.2)) := by
  intro ks
  induction ks with
  | nil =>
    intro st _ hnd _ hctr
    exact ⟨hnd, by simpa using hctr, le_max_right maxPairs st.2,
      fun p hp => Or.inl hp⟩
  | cons k ks ih =>
    intro st hks hnd hdisj hctr
    have hkks : k ∉ ks := (List.nodup_cons.mp hks).1
    have hks2 : ks.Nodup := (List.nodup_cons.mp hks).2
    have hkst : k ∉ st.1.map Prod.fst := hdisj k (List.mem_cons_self k ks)
    rw [List.foldl_cons]
    by_cases hreg : st.2 ≤ maxPairs - 1 ∧ k.1 ≠ k.2
    · have hstep : init_pairs_step maxPairs st k =
          (st.1 ++ [(k, ⟨st.2⟩)], st.2 + 1) := by
        simp [init_pairs_step, hreg]
      rw [hstep]
      have hnd2 : ((st.1 ++ [(k, (⟨st.2⟩ : PairHandle))]).map Prod.fst).Nodup := by
        simp only [List.map_append, List.map_cons, List.map_nil]
        rw [List.nodup_append]
        exact ⟨hnd, List.nodup_singleton k,
          by simpa [List.disjoint_singleton] using hkst⟩
      have hdisj2 : ∀ k2 ∈ ks,
          k2 ∉ (st.1 ++ [(k, (⟨st.2⟩ : PairHandle))]).map Prod.fst := by
        intro k2 hk2
        simp only [List.map_append, List.map_cons, List.map_nil,
          List.mem_append, List.mem_singleton]
        rintro (hin | hin)
        · exact hdisj k2 (List.mem_cons_of_mem k hk2) hin
        · exact hkks (hin ▸ hk2)
      have hctr2 : st.2 + 1 = 1 + ((st.1 ++ [(k, (⟨st.2⟩ : PairHandle))]).length : Int) := by
        simp only [List.length_append, List.length_cons, List.length_nil]
        push_cast
        omega
      obtain ⟨c1, c2, c3, c4⟩ :=
        ih (st.1 ++ [(k, ⟨st.2⟩)], st.2 + 1) hks2 hnd2 hdisj2 (by simpa using hctr2)
      refine ⟨c1, c2, ?_, ?_⟩
      · have : st.2 + 1 ≤ maxPairs := by omega
        have hmx : max maxPairs (st.2 + 1) ≤ max maxPairs st.2 := by omega
        exact le_trans c3 hmx
      · intro p hp
        rcases c4 p hp with hin | hin
        · rcases List.mem_append.mp hin with hin2 | hin2
          · exact Or.inl hin2
          · have hpk : p = (k, (⟨st.2⟩ : PairHandle)) := by simpa using hin2
            refine Or.inr ⟨?_, ?_⟩
            · rw [hpk]; exact List.mem_cons_self k ks
            · rw [hpk]; exact hreg.2
        · exact Or.inr ⟨List.mem_cons_of_mem k hin.1, hin.2⟩
    · have hstep : init_pairs_step maxPairs st k = st := by
        simp only [init_pairs_step, if_neg hreg]
      rw [hstep]
      obtain ⟨c1, c2, c3, c4⟩ := ih st hks2 hnd
        (fun k2 hk2 => hdisj k2 (List.mem_cons_of_mem k hk2)) hctr
      exact ⟨c1, c2, c3, fun p hp => (c4 p hp).imp id
        (fun hin => ⟨List.mem_cons_of_mem k hin.1, hin.2⟩)⟩

/-- The registration invariant instantiated at the real start state and the
real enumeration: nodup keys, size bound, and fg ≠ bg for every entry. -/
theorem init_curses_PAIRS_props (maxPairs : Int) :
    ((init_curses_PAIRS maxPairs).map Prod.fst).Nodup ∧
    ((init_curses_PAIRS maxPairs).length : Int) ≤ max maxPairs 1 - 1 ∧
    (∀ p ∈ init_curses_PAIRS maxPairs, p.1.1 ≠ p.1.2) := by
  have hkeys : CLRS_keys.Nodup := by decide
  have hprodnd : (CLRS_keys ×ˢ CLRS_keys).Nodup := hkeys.product hkeys
  have hrw : init_curses_PAIRS maxPairs =
      ((CLRS_keys ×ˢ CLRS_keys).foldl (init_pairs_step maxPairs) ([], 1)).1 := by
    unfold init_curses_PAIRS
    rw [foldl_nested_eq_product_foldl]
  obtain ⟨c1, c2, c3, c4⟩ := init_pairs_fold_inv maxPairs
    (CLRS_keys ×ˢ CLRS_keys) ([], 1) hprodnd (by simp) (by simp) (by simp)
  refine ⟨by rw [hrw]; exact c1, ?_, ?_⟩
  · rw [hrw]
    omega
  · intro p hp
    rw [hrw] at hp
    rcases c4 p hp with hin | hin
    · simp at hin
    · exact hin.2

/-- Once the counter has passed the budget, one row of the registration
loop changes nothing. -/
theorem inner_fold_exhausted (maxPairs : Int) (fg : String) :
    ∀ (bs : List String) (st : List ((String × String) × PairHandle) × Int),
      maxPairs - 1 < st.2 →
      bs.foldl (fun st2 bg => init_pairs_step maxPairs st2 (fg, bg)) st = st := by
  intro bs
  induction bs with
  | nil => intro st _; rfl
  | cons b bs ih =>
    intro st hst
    rw [List.foldl_cons]
    have hstep : init_pairs_step maxPairs st (fg, b) = st := by
      simp only [init_pairs_step]
      rw [if_neg]
      exact fun hc => absurd hc.1 (not_le.mpr hst)
    rw [hstep]
    exact ih st hst

/-- Once the counter has passed the budget, the remaining rows of the
registration loop change nothing. -/
theorem outer_fold_exhausted (maxPairs : Int) (bs : List String) :
    ∀ (fgs : List String) (st : List ((String × String) × PairHandle) × Int),
      maxPairs - 1 < st.2 →
      fgs.foldl
        (fun st1 fg =>
          bs.foldl (fun st2 bg => init_pairs_step maxPairs st2 (fg, bg)) st1)
        st = st := by
  intro fgs
  induction fgs with
  | nil => intro st _; rfl
  | cons a fgs ih =>
    intro st hst
    rw [List.foldl_cons]
    rw [inner_fold_exhausted maxPairs a bs st hst]
    exact ih st hst

set_option maxRecDepth 4000 in
/-- The concrete table for a driver budget of 3 pairs: the counter reaches
3 after two registrations in the first row and everything else is
skipped. -/
theorem init_curses_PAIRS_three :
    init_curses_PAIRS 3 =
      [(("default", "dgray"), ⟨1⟩), (("default", "red"), ⟨2⟩)] := by
  have h1 : CLRS_keys.foldl
      (fun st2 bg => init_pairs_step 3 st2 ("default", bg)) ([], 1) =
      ([(("default", "dgray"), ⟨1⟩), (("default", "red"), ⟨2⟩)], 3) := by
    decide
  have hkeys : CLRS_keys = "default" :: ["dgray", "red", "green", "cyan",
      "black", "blue", "indigo", "brown", "violet", "orange", "yellow",
      "cream", "white", "gray", "lgray"] := by decide
  unfold init_curses_PAIRS
  rw [hkeys, List.foldl_cons]
  rw [hkeys] at h1
  rw [h1]
  rw [outer_fold_exhausted 3 _ _ _ (by omega)]

/-- Unregistered keys fail the lookup. -/
theorem lookupPair_not_mem (tbl : List ((String × String) × PairHandle))
    (key : String × String) (h : key ∉ tbl.map Prod.fst) :
    lookupPair tbl key = .error .ConfigurationError := by
  induction tbl with
  | nil => rfl
  | cons e rest ih =>
    obtain ⟨k, hdl⟩ := e
    simp only [List.map_cons, List.mem_cons, not_or] at h
    have hne : ¬ (k = key) := fun hk => h.1 hk.symm
    simp only [lookupPair, if_neg hne]
    exact ih h.2

/-- Over a table with nodup keys, lookup finds exactly the stored handle. -/
theorem lookupPair_mem (tbl : List ((String × String) × PairHandle))
    (key : String × String) (hdl : PairHandle)
    (hnd : (tbl.map Prod.fst).Nodup) (hmem : (key, hdl) ∈ tbl) :
    lookupPair tbl key = .ok hdl := by
  induction tbl with
  | nil => simp at hmem
  | cons e rest ih =>
    obtain ⟨k, hdl0⟩ := e
    simp only [List.map_cons, List.nodup_cons] at hnd
    rcases List.mem_cons.mp hmem with heq | hrest
    · obtain ⟨h1, h2⟩ := Prod.mk.injEq .. ▸ heq
      simp [lookupPair, h1.symm, h2]
    · have hne : k ≠ key := by
        intro hkey
        exact hnd.1 (hkey ▸ List.mem_map_of_mem Prod.fst hrest)
      simp only [lookupPair, if_neg hne]
      exact ih hnd.2 hrest

/-- CLAIM C4. For the `PAIRS` table built at startup by
`Desktop._init_curses` under any driver pair budget: looking up a pair that
was not registered fails with `ConfigurationError` (the `KeyError` of
`PAIRS[(fg, bg)]`), and looking up a registered pair returns exactly the
handle stored for it at registration. -/
theorem PAIRS_lookup_spec (maxPairs : Int) (fg bg : String) :
    ((fg, bg) ∉ (init_curses_PAIRS maxPairs).map Prod.fst →
      lookupPair (init_curses_PAIRS maxPairs) (fg, bg) =
        .error .ConfigurationError) ∧
    (∀ hdl, ((fg, bg), hdl) ∈ init_curses_PAIRS maxPairs →
      lookupPair (init_curses_PAIRS maxPairs) (fg, bg) = .ok hdl) :=
  ⟨fun hnot => lookupPair_not_mem (init_curses_PAIRS maxPairs) (fg, bg) hnot,
   fun hdl hmem => lookupPair_mem (init_curses_PAIRS maxPairs) (fg, bg) hdl
     (init_curses_PAIRS_props maxPairs).1 hmem⟩

/-- Witness for `PAIRS_lookup_spec` with a driver budget of 3 pairs: only
`("default","dgray") ↦ 1` and `("default","red") ↦ 2` get registered, the
second lookup succeeds with its stored handle, and an unregistered pair
errors. -/
theorem PAIRS_lookup_spec_witness :
    lookupPair (init_curses_PAIRS 3) ("default", "red") = .ok ⟨2⟩ ∧
    lookupPair (init_curses_PAIRS 3) ("red", "green") =
      .error .ConfigurationError :=
  ⟨(PAIRS_lookup_spec 3 "default" "red").2 ⟨2⟩
     (by rw [init_curses_PAIRS_three]; decide),
   (PAIRS_lookup_spec 3 "red" "green").1
     (by rw [init_curses_PAIRS_three]; decide)⟩

/-- CLAIM C5. For any driver budget `maxPairs = curses.COLOR_PAIRS ≥ 1`,
the startup registration loop registers at most `maxPairs - 1` entries,
registers each distinct ordered `(fg, bg)` key at most once (the key list
is nodup), only registers keys with `fg ≠ bg`, and is total — combinations
beyond the budget are skipped without any error. -/
theorem PAIRS_registration_bounded (maxPairs : Int) (h : 1 ≤ maxPairs) :
    ((init_curses_PAIRS maxPairs).length : Int) ≤ maxPairs - 1 ∧
    ((init_curses_PAIRS maxPairs).map Prod.fst).Nodup ∧
    (∀ p ∈ init_curses_PAIRS maxPairs, p.1.1 ≠ p.1.2) := by
  obtain ⟨c1, c2, c3⟩ := init_curses_PAIRS_props maxPairs
  exact ⟨by omega, c1, c3⟩

/-- Witness for `PAIRS_registration_bounded` at the concrete budget 3. -/
theorem PAIRS_registration_bounded_witness :
    ((init_curses_PAIRS 3).length : Int) ≤ 3 - 1 ∧
    ((init_curses_PAIRS 3).map Prod.fst).Nodup ∧
    (∀ p ∈ init_curses_PAIRS 3, p.1.1 ≠ p.1.2) :=
  PAIRS_registration_bounded 3 (by decide)

/-- A window passes the click guard exactly when it has a live surface
that encloses the point. -/
theorem click_hits_iff (w : Window) (my mx : Int) :
    click_hits w my mx = true ↔
      ∃ s, w.scr = some s ∧ s.enclose my mx = true := by
  cases hscr : w.scr <;> simp [click_hits, hscr]

/-- Every invocation produced by the broadcast loop is a `winClick` of an
index at least the start index whose window has a live enclosing
surface. -/
theorem broadcast_clicks_mem (my mx click : Int) :
    ∀ (ws : List Window) (i0 : Nat) (inv : Invocation),
      inv ∈ broadcast_clicks my mx click i0 ws →
      ∃ j s, inv = Invocation.winClick (i0 + j) my mx click ∧
        ∃ hj : j < ws.length, (ws.get ⟨j, hj⟩).scr = some s ∧
          s.enclose my mx = true := by
  intro ws
  induction ws with
  | nil => intro i0 inv h; simp [broadcast_clicks] at h
  | cons w ws ih =>
    intro i0 inv h
    simp only [broadcast_clicks, List.mem_append] at h
    rcases h with h | h
    · by_cases hhit : click_hits w my mx
      · rw [if_pos hhit] at h
        have hinv : inv = Invocation.winClick i0 my mx click := by
          simpa using h
        obtain ⟨s, hscr, henc⟩ := (click_hits_iff w my mx).mp hhit
        refine ⟨0, s, by simpa using hinv, Nat.succ_pos ws.length, ?_, henc⟩
        simpa using hscr
      · rw [if_neg hhit] at h; simp at h
    · obtain ⟨j, s, hinv, hj, hscr, henc⟩ := ih (i0 + 1) inv h
      refine ⟨j + 1, s, ?_, Nat.succ_lt_succ hj, ?_, henc⟩
      · rw [hinv]; congr 1; omega
      · simpa using hscr

/-- Conversely, any index with a live enclosing surface is hit by the
broadcast loop. -/
theorem broadcast_clicks_covers (my mx click : Int) :
    ∀ (ws : List Window) (i0 : Nat) (j : Nat) (hj : j < ws.length)
      (s : Surface),
      (ws.get ⟨j, hj⟩).scr = some s →
      s.enclose my mx = true →
      Invocation.winClick (i0 + j) my mx click ∈
        broadcast_clicks my mx click i0 ws := by
  intro ws
  induction ws with
  | nil => intro i0 j hj; exact absurd hj (Nat.not_lt_zero j)
  | cons w ws ih =>
    intro i0 j hj s hscr henc
    simp only [broadcast_clicks, List.mem_append]
    cases j with
    | zero =>
      left
      have hw : w.scr = some s := by simpa using hscr
      have hhit : click_hits w my mx = true :=
        (click_hits_iff w my mx).mpr ⟨s, hw, henc⟩
      rw [if_pos hhit]
      simp
    | succ jj =>
      right
      have hmem := ih (i0 + 1) jj (Nat.lt_of_succ_lt_succ hj) s
        (by simpa using hscr) henc
      have harith : i0 + 1 + jj = i0 + (jj + 1) := by omega
      rw [harith] at hmem
      exact hmem

/-- CLAIM C2. For a mouse click at `(my, mx)` handled in one tick of the
main loop: the Desktop's own click handler is invoked exactly once, every
child whose (live) region encloses the point is invoked — in particular
every currently active child with its surface attached — regardless of how
many such children overlap, and every per-child invocation is such a
broadcast delivery (routing is broadcast-to-all-containing, never
exclusive/topmost-only); the loop keeps running. -/
theorem click_broadcast_spec (quit_on_q : Bool) (ws : List Window)
    (my mx click : Int) :
    ((handle_input quit_on_q ws (.mouse my mx click)).1.count
        (Invocation.deskClick my mx click) = 1) ∧
    (∀ (j : Nat) (hj : j < ws.length) (s : Surface),
      (ws.get ⟨j, hj⟩).active = true →
      (ws.get ⟨j, hj⟩).scr = some s →
      s.enclose my mx = true →
      Invocation.winClick j my mx click ∈
        (handle_input quit_on_q ws (.mouse my mx click)).1) ∧
    (∀ inv ∈ (handle_input quit_on_q ws (.mouse my mx click)).1,
      inv = Invocation.deskClick my mx click ∨
      ∃ j s, inv = Invocation.winClick j my mx click ∧
        ∃ hj : j < ws.length, (ws.get ⟨j, hj⟩).scr = some s ∧
          s.enclose my mx = true) ∧
    (handle_input quit_on_q ws (.mouse my mx click)).2 = true := by
  refine ⟨?_, ?_, ?_, rfl⟩
  · simp only [handle_input, List.count_cons, beq_self_eq_true, if_pos]
    have hzero : (broadcast_clicks my mx click 0 ws).count
        (Invocation.deskClick my mx click) = 0 := by
      rw [List.count_eq_zero]
      intro hmem
      obtain ⟨j, s, hinv, _⟩ := broadcast_clicks_mem my mx click ws 0
        (Invocation.deskClick my mx click) hmem
      exact Invocation.noConfusion hinv
    simp [hzero]
  · intro j hj s _ hscr henc
    simp only [handle_input, List.mem_cons]
    right
    have := broadcast_clicks_covers my mx click ws 0 j hj s hscr henc
    simpa using this
  · intro inv hinv
    simp only [handle_input, List.mem_cons] at hinv
    rcases hinv with h | h
    · exact Or.inl h
    · obtain ⟨j, s, hinv2, hjlt, hscr, henc⟩ :=
        broadcast_clicks_mem my mx click ws 0 inv h
      exact Or.inr ⟨j, s, by simpa using hinv2, hjlt, hscr, henc⟩

/-- Witness for `click_broadcast_spec`: the spec's own scenario — W1 at
`(0,0)` size `5 × 10` attached first, W2 at `(2,2)` size `5 × 10` attached
second, both active with live surfaces; a click at `(3,5)` lies inside
both, so the Desktop handler fires once and both children are hit. -/
theorem click_broadcast_spec_witness :
    ((handle_input true
        [{ (window_init 0 0 5 10 0).1 with scr := some ⟨0, 0, 5, 10⟩ },
         { (window_init 2 2 5 10 0).1 with scr := some ⟨2, 2, 5, 10⟩ }]
        (.mouse 3 5 1)).1.count (Invocation.deskClick 3 5 1) = 1) ∧
    Invocation.winClick 0 3 5 1 ∈
      (handle_input true
        [{ (window_init 0 0 5 10 0).1 with scr := some ⟨0, 0, 5, 10⟩ },
         { (window_init 2 2 5 10 0).1 with scr := some ⟨2, 2, 5, 10⟩ }]
        (.mouse 3 5 1)).1 ∧
    Invocation.winClick 1 3 5 1 ∈
      (handle_input true
        [{ (window_init 0 0 5 10 0).1 with scr := some ⟨0, 0, 5, 10⟩ },
         { (window_init 2 2 5 10 0).1 with scr := some ⟨2, 2, 5, 10⟩ }]
        (.mouse 3 5 1)).1 :=
  ⟨(click_broadcast_spec true _ 3 5 1).1,
   (click_broadcast_spec true _ 3 5 1).2.1 0 (by decide) ⟨0, 0, 5, 10⟩
     (by decide) (by decide) (by decide),
   (click_broadcast_spec true _ 3 5 1).2.1 1 (by decide) ⟨2, 2, 5, 10⟩
     (by decide) (by decide) (by decide)⟩

/-- CLAIM C3. For a non-mouse key in one tick: `q`/`Q` (113/81) with
`quit_on_q` enabled clears the loop flag — the `while loop:` test then
fails and `_mainloop` returns (terminal teardown then happens in
`Desktop.__del__`/`curses.wrapper`, outside this model) — and dispatches
to no handler; any other key, or `q`/`Q` with `quit_on_q` disabled, is
dispatched to the Desktop's key handler exactly once and to no child
widget (the invocation list is exactly `[deskKey getch]`, and no
child-key invocation so much as exists in the model). -/
theorem quit_key_spec (quit_on_q : Bool) (ws : List Window) (getch : Int) :
    ((getch = 113 ∨ getch = 81) → quit_on_q = true →
      handle_input quit_on_q ws (.key getch) = ([], false)) ∧
    (¬ ((getch = 113 ∨ getch = 81) ∧ quit_on_q = true) →
      handle_input quit_on_q ws (.key getch) =
        ([Invocation.deskKey getch], true)) := by
  constructor
  · intro hq hquit
    simp [handle_input, hq, hquit]
  · intro hne
    simp only [handle_input]
    rw [if_neg]
    intro hc
    exact hne ⟨hc.1, hc.2⟩

/-- Witness for `quit_key_spec`: with `quit_on_q` enabled, the key `q`
(113) ends the loop with nothing dispatched, and the key `a` (97) goes to
the Desktop's key handler only. -/
theorem quit_key_spec_witness :
    handle_input true [] (.key 113) = ([], false) ∧
    handle_input true [] (.key 97) = ([Invocation.deskKey 97], true) :=
  ⟨(quit_key_spec true [] 113).1 (Or.inl rfl) rfl,
   (quit_key_spec true [] 97).2 (by decide)⟩

/-- CLAIM C6. If every active window keeps a live surface (the hook does
not detach handles), the redraw pass completes no matter which hooks raise
`curses.error`: every window is processed (same length, inactive ones set
to released), and exactly one "writing to bad area" error line is logged
per active window whose hook raised — a misbehaving widget never aborts
the pass. -/
theorem redraw_contains_hook_errors (hook : RedrawHook) (ws : List Window)
    (hscr : ∀ w, ((hook w).1).scr = w.scr)
    (hlive : ∀ w ∈ ws, w.active = true → w.scr ≠ none) :
    ∃ ws2 logs, desktop_redraw_pass hook ws = .ok (ws2, logs) ∧
      ws2.length = ws.length ∧
      logs.length = ws.countP (fun w => w.active && (hook w).2) := by
  induction ws with
  | nil => exact ⟨[], [], rfl, rfl, rfl⟩
  | cons w ws ih =>
    obtain ⟨ws2, logs, hpass, hlen, hcount⟩ :=
      ih (fun v hv hav => hlive v (List.mem_cons_of_mem w hv) hav)
    by_cases hact : w.active
    · have hw : ((hook w).1).scr = w.scr := hscr w
      have hnn : w.scr ≠ none := hlive w (List.mem_cons_self w ws) hact
      cases hws : w.scr with
      | none => exact absurd hws hnn
      | some s =>
        by_cases hraise : (hook w).2
        · refine ⟨(hook w).1 :: ws2, bad_area_msg :: logs, ?_, by simp [hlen], ?_⟩
          · simp only [desktop_redraw_pass, desktop_redraw_step, if_pos hact,
              window_on_redraw, if_pos hraise]
            rw [show ((hook w).1).scr = some s from hw.trans hws]
            rw [hpass]
            rfl
          · simp [List.countP_cons, hact, hraise, hcount]
        · refine ⟨(hook w).1 :: ws2, logs, ?_, by simp [hlen], ?_⟩
          · simp only [desktop_redraw_pass, desktop_redraw_step, if_pos hact,
              window_on_redraw, if_neg hraise]
            rw [show ((hook w).1).scr = some s from hw.trans hws]
            rw [hpass]
            rfl
          · simp [List.countP_cons, hraise, hcount]
    · refine ⟨{ w with scr := none } :: ws2, logs, ?_, by simp [hlen], ?_⟩
      · simp only [desktop_redraw_pass, desktop_redraw_step, if_neg hact]
        rw [hpass]
        simp
      · simp [List.countP_cons, hact, hcount]

/-- Witness for `redraw_contains_hook_errors`: two active windows whose
hooks both write out of bounds; the pass still returns, with two error
lines. -/
theorem redraw_contains_hook_errors_witness :
    ∃ ws2 logs,
      desktop_redraw_pass alwaysRaiseHook [sampleWin, sampleWin2] =
        .ok (ws2, logs) ∧
      ws2.length = [sampleWin, sampleWin2].length ∧
      logs.length = [sampleWin, sampleWin2].countP
        (fun w => w.active && (alwaysRaiseHook w).2) :=
  redraw_contains_hook_errors alwaysRaiseHook [sampleWin, sampleWin2]
    (fun w => rfl)
    (by intro w hw hact; fin_cases hw <;> simp [sampleWin, sampleWin2, window_init])

/-- CLAIM C7. In any completed redraw pass: the child list keeps its length
(nothing is ever removed), a window whose active flag is cleared comes out
with its surface handle released (`scr = None`) and otherwise untouched at
the same position, its redraw hook is never consulted (the per-window step
on an inactive window is the same for every hook), and releasing an
already-released handle is a no-op (the step is idempotent on inactive
windows). -/
theorem redraw_skips_inactive (hook : RedrawHook) (ws ws2 : List Window)
    (logs : List String)
    (hpass : desktop_redraw_pass hook ws = .ok (ws2, logs)) :
    ws2.length = ws.length ∧
    (∀ (i : Nat) (h1 : i < ws.length) (h2 : i < ws2.length),
      (ws.get ⟨i, h1⟩).active = false →
      ws2.get ⟨i, h2⟩ = { ws.get ⟨i, h1⟩ with scr := none }) ∧
    (∀ w : Window, w.active = false →
      desktop_redraw_step hook w = .ok ({ w with scr := none }, []) ∧
      desktop_redraw_step hook { w with scr := none } =
        .ok ({ w with scr := none }, [])) := by
  refine ⟨?_, ?_, ?_⟩
  · induction ws generalizing ws2 logs with
    | nil =>
      simp only [desktop_redraw_pass] at hpass
      cases hpass
      rfl
    | cons w ws ih =>
      simp only [desktop_redraw_pass] at hpass
      cases hstep : desktop_redraw_step hook w with
      | error e => rw [hstep] at hpass; cases hpass
      | ok p =>
        rw [hstep] at hpass
        cases hrest : desktop_redraw_pass hook ws with
        | error e => rw [hrest] at hpass; cases hpass
        | ok q =>
          rw [hrest] at hpass
          cases hpass
          simp [ih q.1 q.2 hrest]
  · induction ws generalizing ws2 logs with
    | nil =>
      intro i h1
      exact absurd h1 (Nat.not_lt_zero i)
    | cons w ws ih =>
      simp only [desktop_redraw_pass] at hpass
      cases hstep : desktop_redraw_step hook w with
      | error e => rw [hstep] at hpass; cases hpass
      | ok p =>
        rw [hstep] at hpass
        cases hrest : desktop_redraw_pass hook ws with
        | error e => rw [hrest] at hpass; cases hpass
        | ok q =>
          rw [hrest] at hpass
          cases hpass
          intro i h1 h2 hina
          cases i with
          | zero =>
            have hina2 : w.active = false := by simpa using hina
            have hstep2 : desktop_redraw_step hook w =
                .ok ({ w with scr := none }, []) := by
              simp [desktop_redraw_step, hina2]
            have hp : p = ({ w with scr := none }, []) :=
              Except.ok.inj (hstep.symm.trans hstep2)
            simp [hp]
          | succ ii =>
            exact ih q.1 q.2 hrest ii (by simpa using h1) (by simpa using h2)
              (by simpa using hina)
  · intro w hina
    constructor
    · simp [desktop_redraw_step, hina]
    · simp [desktop_redraw_step, hina]

/-- Witness for `redraw_skips_inactive`: one deactivated window — the pass
returns it released at its position, still in the list, and re-releasing
is a no-op. -/
theorem redraw_skips_inactive_witness :
    ([sampleWinReleased] : List Window).length =
      ([sampleWinInactive] : List Window).length ∧
    ([sampleWinReleased] : List Window).get ⟨0, by decide⟩ =
      { ([sampleWinInactive] : List Window).get ⟨0, by decide⟩ with
        scr := none } ∧
    desktop_redraw_step quietHook sampleWinReleased =
      .ok ({ sampleWinReleased with scr := none }, []) := by
  have hpass : desktop_redraw_pass quietHook [sampleWinInactive] =
      .ok ([sampleWinReleased], []) := by
    rfl
  have hmain := redraw_skips_inactive quietHook [sampleWinInactive]
    [sampleWinReleased] [] hpass
  refine ⟨hmain.1, ?_, ?_⟩
  · exact hmain.2.1 0 (by decide) (by decide) (by decide)
  · exact (hmain.2.2 sampleWinReleased (by decide)).1

/-- CLAIM C9. Deactivate a window, run one redraw pass (which releases its
handle), then set `active = True` again without re-attaching: the next pass
hits the `None` handle in the per-window tail (`_ymax`/`border`/
`noutrefresh` on `window.scr`) and fails with the uncaught
`AttributeError` — reactivation after deactivation is not safe, for any
hook that does not itself re-attach a surface. -/
theorem reactivation_unsafe (hook : RedrawHook) (w : Window)
    (hscr : ∀ v, ((hook v).1).scr = v.scr) (hina : w.active = false) :
    desktop_redraw_step hook w = .ok ({ w with scr := none }, []) ∧
    desktop_redraw_step hook { w with scr := none, active := true } =
      .error .NoneDeref := by
  constructor
  · simp [desktop_redraw_step, hina]
  · have hs : ((hook { w with scr := none, active := true }).1).scr = none :=
      hscr { w with scr := none, active := true }
    by_cases hraise : (hook { w with scr := none, active := true }).2 <;>
      simp [desktop_redraw_step, window_on_redraw, hraise, hs]

/-- Witness for `reactivation_unsafe`: a concrete deactivated window with a
well-behaved hook — the pass after reactivation fails. -/
theorem reactivation_unsafe_witness :
    desktop_redraw_step quietHook sampleWinInactive =
      .ok ({ sampleWinInactive with scr := none }, []) ∧
    desktop_redraw_step quietHook
      { sampleWinInactive with scr := none, active := true } =
      .error .NoneDeref := by
  have hmain := reactivation_unsafe quietHook sampleWinInactive
    (fun v => rfl) (by decide)
  exact ⟨hmain.1, hmain.2⟩

/-- Iterating a hook from one of its fixed points does nothing. -/
theorem iterate_hook_fixed (f : Window → Window × List String) (w : Window)
    (hfix : f w = (w, [])) : ∀ n, iterate_hook f n w = (w, []) := by
  intro n
  induction n with
  | zero => rfl
  | succ n ih => simp [iterate_hook, hfix, ih]

/-- After the first call the latch is set and the hook becomes a silent
no-op; so `n ≥ 1` calls log exactly the one latched warning and set only
the latch. Stated generically over the four defaults via their latch
projection and update. -/
theorem iterate_hook_once (f : Window → Window × List String) (w w1 : Window)
    (msg : String) (hfirst : f w = (w1, [msg])) (hfix : f w1 = (w1, []))
    (n : Nat) (hn : 1 ≤ n) :
    iterate_hook f n w = (w1, [msg]) := by
  cases n with
  | zero => exact absurd hn (by decide)
  | succ n => simp [iterate_hook, hfirst, iterate_hook_fixed f w1 hfix n]

/-- CLAIM C8. For each lifecycle hook a `Window` subclass does not
override, calling the default any number `n ≥ 1` of times performs no
operation and raises no error, except that exactly one warning is logged —
on the first call only, latched per hook per instance — and the only state
change is that hook's latch bit. -/
theorem unimplemented_hooks_warn_once (n : Nat) (hn : 1 ≤ n)
    (my mx click getch : Int) (w : Window) :
    (w.onClickWarn = false →
      iterate_hook (fun v => on_click_default my mx click v) n w =
        ({ w with onClickWarn := true }, [override_warn_msg "on_click()"])) ∧
    (w.onInitWarn = false →
      iterate_hook on_init_default n w =
        ({ w with onInitWarn := true }, [override_warn_msg "on_init()"])) ∧
    (w.onKeyWarn = false →
      iterate_hook (fun v => on_key_default getch v) n w =
        ({ w with onKeyWarn := true }, [override_warn_msg "on_key()"])) ∧
    (w.onRedrawWarn = false →
      iterate_hook on_redraw_default n w =
        ({ w with onRedrawWarn := true }, [override_warn_msg "on_redraw()"])) := by
  refine ⟨?_, ?_, ?_, ?_⟩
  · intro hlatch
    exact iterate_hook_once _ w _ _ (by simp [on_click_default, hlatch])
      (by simp [on_click_default]) n hn
  · intro hlatch
    exact iterate_hook_once _ w _ _ (by simp [on_init_default, hlatch])
      (by simp [on_init_default]) n hn
  · intro hlatch
    exact iterate_hook_once _ w _ _ (by simp [on_key_default, hlatch])
      (by simp [on_key_default]) n hn
  · intro hlatch
    exact iterate_hook_once _ w _ _ (by simp [on_redraw_default, hlatch])
      (by simp [on_redraw_default]) n hn

/-- Witness for `unimplemented_hooks_warn_once`: three calls to the default
`on_click` on a fresh window log exactly one warning. -/
theorem unimplemented_hooks_warn_once_witness :
    iterate_hook (fun v => on_click_default 1 2 3 v) 3
      (window_init 0 0 2 2 0).1 =
      ({ (window_init 0 0 2 2 0).1 with onClickWarn := true },
       [override_warn_msg "on_click()"]) :=
  (unimplemented_hooks_warn_once 3 (by decide) 1 2 3 0
    (window_init 0 0 2 2 0).1).1 (by decide)

end Cursely
